import Mathlib

/-!
Shallow embedding of the session/authentication core of the Showcase
fullstack-app repository:

* `src/fullstack-app/utils/auth.js`    — credential hasher (`hashPassword`,
  `verifyPassword`)
* `src/fullstack-app/utils/session.js` — session store and cookie adapter
  (`createSession`, `validateSession`, `deleteSession`,
  `cleanupExpiredSessions`, `setSessionCookie`, `parseCookies`,
  `getSessionToken`)
* auth request handler (`handleAuthRequest`, register / login / logout / me)
  and the user table helpers (`createUser`, `getUserById`, `getUserByEmail`).

Conventions of the embedding:

* JavaScript code that can throw is embedded in `Except JsError`; a total
  JS function is embedded as a total Lean function.
* `Buffer.from(s, 'hex')` is `bufFromHex`: it decodes hex pairs and stops
  (without throwing) at the first non-hex pair or odd leftover character,
  exactly as Node does.
* `crypto.timingSafeEqual` throws a `RangeError` when the two buffers have
  different lengths, otherwise returns content equality.
* `crypto.pbkdf2Sync(password, salt, 100000, 64, 'sha512')` is an
  uninterpreted parameter `kdf : String → String → List Nat` producing the
  derived key bytes; the source then hex-encodes it (`hexEncode`).
* SQLite `DATETIME` values are ISO-8601 UTC strings of a fixed format, on
  which SQLite's string comparison coincides with chronological order;
  timestamps are therefore embedded as `Nat` with the numeric order.
* SQL rows are Lean structures, tables are lists of rows, `stmt.get` is
  `List.find?`, and `DELETE ... WHERE p` keeps the rows not satisfying `p`.
* JavaScript objects that reach `JSON.stringify` are embedded as
  association lists of field names (`JsonVal.obj`); `delete obj.k` removes
  the binding for `k`.
-/

/-- Errors a JavaScript primitive in this code base can throw:
`TypeError` (e.g. `Buffer.from(undefined, 'hex')`) and `RangeError`
(`crypto.timingSafeEqual` on buffers of different lengths). -/
inductive JsError where
  | typeError
  | rangeError
deriving DecidableEq, Repr

/-- Value of a single hex digit, `none` for a non-hex character. -/
def hexDigitVal (c : Char) : Option Nat :=
  if '0' ≤ c ∧ c ≤ '9' then some (c.toNat - '0'.toNat)
  else if 'a' ≤ c ∧ c ≤ 'f' then some (c.toNat - 'a'.toNat + 10)
  else if 'A' ≤ c ∧ c ≤ 'F' then some (c.toNat - 'A'.toNat + 10)
  else none

/-- Hex decoding over characters, with Node `Buffer.from(·, 'hex')`
semantics: bytes are decoded two characters at a time and decoding stops
silently at the first invalid pair or odd trailing character. -/
def hexDecodePairs : List Char → List Nat
  | c1 :: c2 :: rest =>
    match hexDigitVal c1, hexDigitVal c2 with
    | some a, some b => (16 * a + b) :: hexDecodePairs rest
    | _, _ => []
  | _ => []

/-- Node `Buffer.from(s, 'hex')` as a byte list. -/
def bufFromHex (s : String) : List Nat :=
  hexDecodePairs s.data

/-- Lowercase hex digit for a value `< 16`. -/
def hexDigitChar (n : Nat) : Char :=
  if n < 10 then Char.ofNat ('0'.toNat + n)
  else Char.ofNat ('a'.toNat + (n - 10))

/-- The two lowercase hex characters of one byte. -/
def hexEncByte (b : Nat) : List Char :=
  [hexDigitChar (b / 16 % 16), hexDigitChar (b % 16)]

/-- Node `buf.toString('hex')`: lowercase hex encoding of a byte list. -/
def hexEncode (bs : List Nat) : String :=
  ⟨(bs.map hexEncByte).flatten⟩

/-- Node `crypto.timingSafeEqual(a, b)`: throws `RangeError` when the buffers
have different lengths, otherwise compares contents. -/
def timingSafeEqual (a b : List Nat) : Except JsError Bool :=
  if a.length = b.length then .ok (a == b) else .error .rangeError

/-- JavaScript `s.split(c)` for a single-character separator, over the
character list: every occurrence of the separator splits, empty pieces are
kept, and the result is never empty. -/
def splitOnCharList (sep : Char) : List Char → List (List Char)
  | [] => [[]]
  | c :: rest =>
    let r := splitOnCharList sep rest
    if c = sep then [] :: r
    else
      match r with
      | [] => [[c]]
      | h :: t => (c :: h) :: t

/-- JavaScript `s.split(c)` on strings. -/
def jsSplit (sep : Char) (s : String) : List String :=
  (splitOnCharList sep s.data).map (fun cs => ⟨cs⟩)

/-- Source `hashPassword(password)` from `utils/auth.js`, with the fresh random
salt and the PBKDF2 derivation passed in as parameters: returns
`salt + ":" + hex(pbkdf2(password, salt))`. -/
def hashPassword (kdf : String → String → List Nat) (salt password : String) : String :=
  salt ++ ":" ++ hexEncode (kdf password salt)

/-- Source `verifyPassword(password, storedHash)` from `utils/auth.js`:
`const [salt, originalHash] = storedHash.split(':')`, re-derivation of the
digest with the embedded salt, then
`crypto.timingSafeEqual(Buffer.from(originalHash, 'hex'), Buffer.from(hash, 'hex'))`.
When the separator is missing, `originalHash` is `undefined` and
`Buffer.from(undefined, 'hex')` throws a `TypeError`; when the decoded
digests have different lengths, `timingSafeEqual` throws a `RangeError`. -/
def verifyPassword (kdf : String → String → List Nat) (password storedHash : String) :
    Except JsError Bool :=
  match jsSplit ':' storedHash with
  | [] => .error .typeError
  | salt :: rest =>
    let hash := hexEncode (kdf password salt)
    match rest.head? with
    | none => .error .typeError
    | some originalHash => timingSafeEqual (bufFromHex originalHash) (bufFromHex hash)

/-- JSON values, as produced by `JSON.stringify` of the objects built in
the handlers; objects are association lists of field names. -/
inductive JsonVal where
  | str (s : String)
  | num (n : Int)
  | bool (b : Bool)
  | null
  | obj (fields : List (String × JsonVal))
  | arr (xs : List JsonVal)

/-- A row of the `users` table
(`users(id, email UNIQUE, password_hash, full_name, meta, created_at,
updated_at, last_login, is_active, role)`).  The `meta` column stores a
JSON document; it is serialized on insert and parsed on read
(`JSON.parse(user.meta)`), so the row carries the parsed value. -/
structure UserRow where
  id : Nat
  email : String
  password_hash : String
  full_name : Option String
  meta : JsonVal
  created_at : Nat
  updated_at : Nat
  last_login : Option Nat
  is_active : Bool
  role : String

/-- A row of the `sessions` table
(`sessions(id, user_id, token UNIQUE, expires_at, created_at)`). -/
structure SessionRow where
  id : Nat
  user_id : Nat
  token : String
  expires_at : Nat
  created_at : Nat
deriving DecidableEq, Repr

/-- The SQLite database state seen by the auth subsystem, plus the
AUTOINCREMENT counters used for `lastInsertRowid`. -/
structure Db where
  users : List UserRow
  sessions : List SessionRow
  nextUserId : Nat
  nextSessionId : Nat

/-- SQL `DELETE FROM t WHERE p`: keeps the rows not matching `p`. -/
def sqlDelete {α : Type} (rows : List α) (p : α → Bool) : List α :=
  rows.filter (fun r => !(p r))

/-- Source `getUserByEmail(email)` from `db.js`:
`SELECT * FROM users WHERE email = ?` (first matching row, all columns). -/
def getUserByEmail (db : Db) (email : String) : Option UserRow :=
  db.users.find? (fun u => u.email == email)

/-- The projection returned by `getUserById` in `db.js`:
`SELECT id, email, full_name, meta, created_at, last_login, is_active,
role FROM users WHERE id = ?` — the `password_hash` column is not
selected. -/
structure UserView where
  id : Nat
  email : String
  full_name : Option String
  meta : JsonVal
  created_at : Nat
  last_login : Option Nat
  is_active : Bool
  role : String

/-- Column projection of `getUserById`. -/
def UserRow.toView (u : UserRow) : UserView :=
  { id := u.id, email := u.email, full_name := u.full_name, meta := u.meta,
    created_at := u.created_at, last_login := u.last_login,
    is_active := u.is_active, role := u.role }

/-- Source `getUserById(id)` from `db.js`. -/
def getUserById (db : Db) (id : Nat) : Option UserView :=
  (db.users.find? (fun u => u.id == id)).map UserRow.toView

/-- Source `createUser(email, passwordHash, fullName, meta)` from `db.js`:
`INSERT INTO users (email, password_hash, full_name, meta) VALUES (?,?,?,?)`
inside a `try`/`catch` that returns `null` on any error.  The schema
declares `email TEXT NOT NULL UNIQUE`, so inserting a duplicate email
raises a uniqueness-constraint violation, which the `catch` turns into
`null`; on success the new row id (`lastInsertRowid`) and the new state
are returned.  `now` supplies the `CURRENT_TIMESTAMP` column defaults. -/
def createUser (db : Db) (email passwordHash : String) (fullName : Option String)
    (meta : JsonVal) (now : Nat) : Option (Nat × Db) :=
  if db.users.any (fun u => u.email == email) then
    none
  else
    let id := db.nextUserId
    let row : UserRow :=
      { id := id, email := email, password_hash := passwordHash,
        full_name := fullName, meta := meta, created_at := now,
        updated_at := now, last_login := none, is_active := true,
        role := "user" }
    some (id, { db with users := db.users ++ [row], nextUserId := id + 1 })

/-- Source `updateLastLogin(userId)` from `db.js`:
`UPDATE users SET last_login = CURRENT_TIMESTAMP WHERE id = ?`. -/
def updateLastLogin (db : Db) (userId : Nat) (now : Nat) : Db :=
  { db with users := db.users.map (fun u =>
      if u.id == userId then { u with last_login := some now } else u) }

/-- Session duration from `session.js`: 24 hours in milliseconds. -/
def SESSION_DURATION : Nat := 24 * 60 * 60 * 1000

/-- The fixed cookie name from `session.js`. -/
def COOKIE_NAME : String := "session_token"

/-- Source `createSession(userId, db)` from `session.js`: the fresh random token
(`crypto.randomBytes(32).toString('hex')`) is passed in as `token`;
`expires_at = now + SESSION_DURATION`; one row is inserted and the token
returned. -/
def createSession (db : Db) (userId : Nat) (token : String) (now : Nat) :
    String × Db :=
  let row : SessionRow :=
    { id := db.nextSessionId, user_id := userId, token := token,
      expires_at := now + SESSION_DURATION, created_at := now }
  (token, { db with sessions := db.sessions ++ [row],
                    nextSessionId := db.nextSessionId + 1 })

/-- Source `validateSession(token, db)` from `session.js`:
`if (!token) return null`;
`SELECT * FROM sessions WHERE token = ? AND expires_at > ?` with the
current time; then `getUserById(session.user_id)`;
`if (!user || !user.is_active) return null`. -/
def validateSession (db : Db) (token : String) (now : Nat) : Option UserView :=
  if token = "" then none
  else
    match db.sessions.find? (fun s => s.token == token && now < s.expires_at) with
    | none => none
    | some s =>
      match getUserById db s.user_id with
      | none => none
      | some user => if user.is_active then some user else none

/-- Source `deleteSession(token, db)` from `session.js`:
`DELETE FROM sessions WHERE token = ?`. -/
def deleteSession (db : Db) (token : String) : Db :=
  { db with sessions := sqlDelete db.sessions (fun s => s.token == token) }

/-- Source `cleanupExpiredSessions(db)` from `session.js`:
`DELETE FROM sessions WHERE expires_at < ?` with the current time. -/
def cleanupExpiredSessions (db : Db) (now : Nat) : Db :=
  { db with sessions := sqlDelete db.sessions (fun s => s.expires_at < now) }

/-- The cookie options object taken by `setSessionCookie`; an absent
property (`none`) picks up the destructuring default. -/
structure CookieOptions where
  maxAge : Option Nat := none
  httpOnly : Option Bool := none
  secure : Option Bool := none
  sameSite : Option String := none
  path : Option String := none

/-- Source `setSessionCookie(res, token, options)` from `session.js`, as the
`Set-Cookie` header value it writes.  Defaults:
`maxAge = SESSION_DURATION / 1000`, `httpOnly = true`,
`secure = (process.env.NODE_ENV === 'production')` (the `isProduction`
parameter), `sameSite = 'Lax'`, `path = '/'`; the header is
`name=token; Max-Age=..; Path=..; SameSite=..` followed by `; HttpOnly`
when `httpOnly` holds and `; Secure` when `secure` holds. -/
def setSessionCookie (isProduction : Bool) (token : String) (options : CookieOptions) :
    String :=
  let maxAge := options.maxAge.getD (SESSION_DURATION / 1000)
  let httpOnly := options.httpOnly.getD true
  let secure := options.secure.getD isProduction
  let sameSite := options.sameSite.getD "Lax"
  let path := options.path.getD "/"
  COOKIE_NAME ++ "=" ++ token ++ "; Max-Age=" ++ toString maxAge ++
    "; Path=" ++ path ++ "; SameSite=" ++ sameSite ++
    (if httpOnly then "; HttpOnly" else "") ++
    (if secure then "; Secure" else "")

/-- JavaScript `s.trim()`: strips whitespace from both ends. -/
def jsTrim (s : String) : String :=
  ⟨((s.data.dropWhile Char.isWhitespace).reverse.dropWhile Char.isWhitespace).reverse⟩

/-- JavaScript `parts.join(sep)`. -/
def jsJoin (sep : String) : List String → String
  | [] => ""
  | [x] => x
  | x :: xs => x ++ sep ++ jsJoin sep xs

/-- JavaScript object property assignment `obj[k] = v` on an association
list: overwrites an existing binding in place, otherwise appends. -/
def jsObjSet (m : List (String × String)) (k v : String) : List (String × String) :=
  match m with
  | [] => [(k, v)]
  | (k', v') :: t => if k' == k then (k', v) :: t else (k', v') :: jsObjSet t k v

/-- JavaScript property lookup `obj[k]` (`undefined` when absent). -/
def jsObjGet (m : List (String × String)) (k : String) : Option String :=
  (m.find? (fun kv => kv.1 == k)).map (fun kv => kv.2)

/-- Source `parseCookies(req)` from `session.js`, on the request's optional
`Cookie` header, instrumented for the throw points of the source: splits
the header on `;`, and for each piece `const [name, ...rest] = piece.split('=')`
then `cookies[name.trim()] = rest.join('=').trim()`.  `name.trim()` would
throw a `TypeError` only if `split` returned an empty array (it never
does); a missing or empty header is falsy and yields `{}`. -/
def parseCookiesE (header : Option String) : Except JsError (List (String × String)) :=
  match header with
  | none => .ok []
  | some h =>
    if h = "" then .ok []
    else
      (jsSplit ';' h).foldlM (fun cookies cookie =>
        match jsSplit '=' cookie with
        | [] => .error .typeError
        | name :: rest =>
          .ok (jsObjSet cookies (jsTrim name) (jsTrim (jsJoin "=" rest)))) []

/-- Embedding of `parseCookies` as the total function it in fact is (the `TypeError`
branch of `parseCookiesE` is unreachable, proved below). -/
def parseCookies (header : Option String) : List (String × String) :=
  match header with
  | none => []
  | some h =>
    if h = "" then []
    else
      (jsSplit ';' h).foldl (fun cookies cookie =>
        match jsSplit '=' cookie with
        | [] => cookies
        | name :: rest =>
          jsObjSet cookies (jsTrim name) (jsTrim (jsJoin "=" rest))) []

/-- Source `getSessionToken(req)` from `session.js`:
`parseCookies(req)[COOKIE_NAME] || null` — a missing cookie and an
empty-string cookie value (falsy) both give `null`. -/
def getSessionToken (header : Option String) : Option String :=
  match jsObjGet (parseCookies header) COOKIE_NAME with
  | none => none
  | some v => if v = "" then none else some v

/-- Embedding of `getSessionToken` instrumented with the throw points of
`parseCookies`. -/
def getSessionTokenE (header : Option String) : Except JsError (Option String) :=
  match parseCookiesE header with
  | .error e => .error e
  | .ok cookies =>
    match jsObjGet cookies COOKIE_NAME with
    | none => .ok none
    | some v => if v = "" then .ok none else .ok (some v)

/-- An HTTP response as written by the handlers: status code and JSON
body. -/
structure Response where
  status : Nat
  body : JsonVal

/-- A `{ error: msg }` body. -/
def errObj (msg : String) : JsonVal :=
  .obj [("error", .str msg)]

/-- JavaScript `delete obj.k` on an object's field list. -/
def jsDeleteField (k : String) (fields : List (String × JsonVal)) :
    List (String × JsonVal) :=
  fields.filter (fun kv => kv.1 != k)

/-- The object a full `users` row (from `SELECT *`, with `meta` already
parsed) serializes to, in column order of the schema. -/
def UserRow.fields (u : UserRow) : List (String × JsonVal) :=
  [("id", .num u.id),
   ("email", .str u.email),
   ("password_hash", .str u.password_hash),
   ("full_name", match u.full_name with | some s => .str s | none => .null),
   ("meta", u.meta),
   ("created_at", .num u.created_at),
   ("updated_at", .num u.updated_at),
   ("last_login", match u.last_login with | some t => .num t | none => .null),
   ("is_active", .bool u.is_active),
   ("role", .str u.role)]

/-- The object a `getUserById` projection serializes to (no
`password_hash` column selected). -/
def UserView.fields (u : UserView) : List (String × JsonVal) :=
  [("id", .num u.id),
   ("email", .str u.email),
   ("full_name", match u.full_name with | some s => .str s | none => .null),
   ("meta", u.meta),
   ("created_at", .num u.created_at),
   ("last_login", match u.last_login with | some t => .num t | none => .null),
   ("is_active", .bool u.is_active),
   ("role", .str u.role)]

/-- Handler for `POST /api/auth/register` from `handleAuthRequest`.  The
request body fields are `email`, `password` (missing/absent JSON fields
arrive as the falsy `""`/`none`).  To express the concurrency window the
spec discusses, the pre-check (`getUserByEmail`) reads `dbPre` while the
insert and everything after it run against `dbIns`: in a single-threaded
run `dbPre = dbIns`.  `salt` and `token` stand for the fresh random
values, `kdf` for PBKDF2, `now` for the clock.  Returns the response and
the post-state. -/
def registerResponse (kdf : String → String → List Nat) (salt token : String)
    (dbPre dbIns : Db) (now : Nat) (email password : String)
    (fullName : Option String) : Response × Db :=
  if email = "" ∨ password = "" then
    (⟨400, errObj "Email and password are required"⟩, dbIns)
  else
    match getUserByEmail dbPre email with
    | some _ => (⟨400, errObj "Email already registered"⟩, dbIns)
    | none =>
      let passwordHash := hashPassword kdf salt password
      match createUser dbIns email passwordHash fullName (.obj []) now with
      | none => (⟨500, errObj "Failed to create user"⟩, dbIns)
      | some (userId, db1) =>
        let (_, db2) := createSession db1 userId token now
        match getUserByEmail db2 email with
        | none =>
          -- `delete user.password_hash` on `undefined` would throw and be
          -- caught: `catch` answers 400 Invalid request.
          (⟨400, errObj "Invalid request"⟩, db2)
        | some user =>
          (⟨200, .obj [("success", .bool true),
                       ("user", .obj (jsDeleteField "password_hash" user.fields))]⟩,
           db2)

/-- Handler for `POST /api/auth/login` from `handleAuthRequest`: missing fields → 400;
unknown email → 401 Invalid credentials; `verifyPassword` false → the same
401; a `verifyPassword` throw is caught by the handler's `catch` → 400
Invalid request; inactive user → 403; otherwise create a session, update
`last_login`, and answer with the user row minus `password_hash`. -/
def loginResponse (kdf : String → String → List Nat) (token : String) (db : Db)
    (now : Nat) (email password : String) : Response × Db :=
  if email = "" ∨ password = "" then
    (⟨400, errObj "Email and password are required"⟩, db)
  else
    match getUserByEmail db email with
    | none => (⟨401, errObj "Invalid credentials"⟩, db)
    | some user =>
      match verifyPassword kdf password user.password_hash with
      | .error _ => (⟨400, errObj "Invalid request"⟩, db)
      | .ok false => (⟨401, errObj "Invalid credentials"⟩, db)
      | .ok true =>
        if !user.is_active then
          (⟨403, errObj "Account is inactive"⟩, db)
        else
          let (_, db1) := createSession db user.id token now
          let db2 := updateLastLogin db1 user.id now
          (⟨200, .obj [("success", .bool true),
                       ("user", .obj (jsDeleteField "password_hash" user.fields))]⟩,
           db2)

/-- Handler for `POST /api/auth/logout` from `handleAuthRequest`: revoke the session
when a token is present, always clear the cookie and answer
`{success:true}`. -/
def logoutResponse (db : Db) (cookieHeader : Option String) : Response × Db :=
  let db' :=
    match getSessionToken cookieHeader with
    | some token => deleteSession db token
    | none => db
  (⟨200, .obj [("success", .bool true)]⟩, db')

/-- Handler for `GET /api/auth/me` from `handleAuthRequest`: extract the token, run
`validateSession`, 401 when absent/invalid, otherwise the user projection
(after the no-op `delete user.password_hash`). -/
def meResponse (db : Db) (now : Nat) (cookieHeader : Option String) : Response :=
  let user :=
    match getSessionToken cookieHeader with
    | some token => validateSession db token now
    | none => none
  match user with
  | none => ⟨401, errObj "Not authenticated"⟩
  | some u => ⟨200, .obj (jsDeleteField "password_hash" u.fields)⟩

/-- Top-level field names of a JSON object (empty for non-objects). -/
def JsonVal.topKeys : JsonVal → List String
  | .obj fields => fields.map (fun kv => kv.1)
  | _ => []

/-- The value of a top-level field of a JSON object. -/
def JsonVal.getKey (v : JsonVal) (k : String) : Option JsonVal :=
  match v with
  | .obj fields => (fields.find? (fun kv => kv.1 == k)).map (fun kv => kv.2)
  | _ => none

/-- No top-level field of the object is named `password_hash`. -/
def JsonVal.noHashKey (v : JsonVal) : Bool :=
  v.topKeys.all (fun k => k != "password_hash")

/-- Neither the response body nor its `user` member (when present) has a
top-level `password_hash` field. -/
def respNoHash (r : Response) : Bool :=
  r.body.noHashKey &&
    (match r.body.getKey "user" with
     | some u => u.noHashKey
     | none => true)

/-- Predicate `listStartsWith pat l`: `pat` is an initial segment of `l`. -/
def listStartsWith : List Char → List Char → Bool
  | [], _ => true
  | _ :: _, [] => false
  | p :: ps, c :: cs => p == c && listStartsWith ps cs

/-- Predicate `listHasSub pat l`: `pat` occurs contiguously in `l`. -/
def listHasSub (pat : List Char) : List Char → Bool
  | [] => pat.isEmpty
  | c :: cs => listStartsWith pat (c :: cs) || listHasSub pat cs

/-- Substring containment on strings. -/
def strHasSub (s pat : String) : Bool :=
  listHasSub pat.data s.data

/-- A concrete stand-in key-derivation function used to evaluate the
embedding at specific inputs (the real code calls
`crypto.pbkdf2Sync(password, salt, 100000, 64, 'sha512')`). -/
def kdfTest (password _salt : String) : List Nat :=
  if password = "a" then [0] else [1]

/-- A database with one user whose email is `a@b.com` (fixture for the
duplicate-insert race). -/
def dbWithUserA : Db :=
  { users := [{ id := 1, email := "a@b.com", password_hash := "h",
                full_name := none, meta := .obj [], created_at := 0,
                updated_at := 0, last_login := none, is_active := true,
                role := "user" }],
    sessions := [], nextUserId := 2, nextSessionId := 1 }

/-- The empty database. -/
def dbEmpty : Db :=
  { users := [], sessions := [], nextUserId := 1, nextSessionId := 1 }

/-- A database with one session row that expires at time 5 (fixture for
the sweep boundary). -/
def dbSweep : Db :=
  { users := [],
    sessions := [{ id := 1, user_id := 1, token := "t", expires_at := 5,
                   created_at := 0 }],
    nextUserId := 1, nextSessionId := 2 }

/-- A database with one active user (id 1, `a@b.com`) owning one session
(`token = "tok"`, expiring at time 10) — fixture for validation. -/
def dbValidate : Db :=
  { users := [{ id := 1, email := "a@b.com", password_hash := "h",
                full_name := none, meta := .obj [], created_at := 0,
                updated_at := 0, last_login := none, is_active := true,
                role := "user" }],
    sessions := [{ id := 1, user_id := 1, token := "tok", expires_at := 10,
                   created_at := 0 }],
    nextUserId := 2, nextSessionId := 2 }

/-- The `getUserById` projection of `dbValidate`'s single user. -/
def userViewA : UserView :=
  { id := 1, email := "a@b.com", full_name := none, meta := .obj [],
    created_at := 0, last_login := none, is_active := true, role := "user" }

theorem splitOnCharList_ne_nil (sep : Char) (cs : List Char) :
    splitOnCharList sep cs ≠ [] := by
  induction cs with
  | nil => simp [splitOnCharList]
  | cons c rest ih =>
    simp only [splitOnCharList]
    split
    · simp
    · match h : splitOnCharList sep rest with
      | [] => simp
      | h' :: t => simp

theorem jsSplit_ne_nil (sep : Char) (s : String) : jsSplit sep s ≠ [] := by
  simpa [jsSplit, List.map_eq_nil_iff] using splitOnCharList_ne_nil sep s.data

theorem hexDigitVal_hexDigitChar (m : Nat) (hm : m < 16) :
    hexDigitVal (hexDigitChar m) = some m := by
  interval_cases m <;> decide

theorem hexDigitChar_ne_colon (m : Nat) (hm : m < 16) : hexDigitChar m ≠ ':' := by
  intro h
  have := hexDigitVal_hexDigitChar m hm
  rw [h] at this
  simp [hexDigitVal] at this

theorem hexDecodePairs_encByte (b : Nat) (hb : b < 256) (rest : List Char) :
    hexDecodePairs (hexEncByte b ++ rest) = b :: hexDecodePairs rest := by
  have h1 : b / 16 % 16 < 16 := Nat.mod_lt _ (by omega)
  have h2 : b % 16 < 16 := Nat.mod_lt _ (by omega)
  simp only [hexEncByte, List.cons_append, List.nil_append, hexDecodePairs,
    hexDigitVal_hexDigitChar _ h1, hexDigitVal_hexDigitChar _ h2]
  congr 1
  omega

theorem bufFromHex_hexEncode (bs : List Nat) (hb : ∀ b ∈ bs, b < 256) :
    bufFromHex (hexEncode bs) = bs := by
  induction bs with
  | nil => rfl
  | cons b bs ih =>
    have hb' : b < 256 := hb b (by simp)
    have ih' := ih (fun x hx => hb x (by simp [hx]))
    simp only [bufFromHex, hexEncode, List.map_cons, List.flatten_cons] at ih' ⊢
    rw [hexDecodePairs_encByte b hb']
    simpa using ih'

theorem hexEncode_no_colon (bs : List Nat) : ':' ∉ (hexEncode bs).data := by
  intro hmem
  simp only [hexEncode, List.mem_flatten, List.mem_map] at hmem
  obtain ⟨l, ⟨b, _, rfl⟩, hcl⟩ := hmem
  simp only [hexEncByte, List.mem_cons, List.not_mem_nil, or_false] at hcl
  rcases hcl with h | h
  · exact hexDigitChar_ne_colon _ (Nat.mod_lt _ (by omega)) h.symm
  · exact hexDigitChar_ne_colon _ (Nat.mod_lt _ (by omega)) h.symm

theorem splitOnCharList_of_not_mem (sep : Char) (l : List Char) (h : sep ∉ l) :
    splitOnCharList sep l = [l] := by
  induction l with
  | nil => rfl
  | cons c rest ih =>
    have hc : c ≠ sep := fun hc => h (by simp [hc])
    have hr := ih (fun hm => h (by simp [hm]))
    simp [splitOnCharList, hc, hr]

theorem splitOnCharList_head_append (sep : Char) (l1 rest : List Char) (h : sep ∉ l1) :
    splitOnCharList sep (l1 ++ rest) =
      (l1 ++ (splitOnCharList sep rest).headI) :: (splitOnCharList sep rest).tail := by
  induction l1 with
  | nil =>
    match hr : splitOnCharList sep rest, splitOnCharList_ne_nil sep rest with
    | hd :: tl, _ => simp
  | cons c l1 ih =>
    have hc : c ≠ sep := fun hc => h (by simp [hc])
    have ih' := ih (fun hm => h (by simp [hm]))
    simp only [List.cons_append, splitOnCharList, if_neg hc]
    rw [List.append_eq, ih']

theorem jsSplit_colon (salt h : String) (hsalt : ':' ∉ salt.data)
    (hh : ':' ∉ h.data) : jsSplit ':' (salt ++ ":" ++ h) = [salt, h] := by
  have hdata : (salt ++ ":" ++ h).data = salt.data ++ (':' :: h.data) := by
    simp [String.data_append]
  have hsplit : splitOnCharList ':' (salt.data ++ (':' :: h.data)) =
      [salt.data, h.data] := by
    rw [splitOnCharList_head_append ':' salt.data (':' :: h.data) hsalt]
    have : splitOnCharList ':' (':' :: h.data) = [] :: splitOnCharList ':' h.data := by
      simp [splitOnCharList]
    rw [this, splitOnCharList_of_not_mem ':' h.data hh]
    simp
  simp only [jsSplit, hdata, hsplit, List.map_cons, List.map_nil]

theorem verifyPassword_hashPassword (kdf : String → String → List Nat)
    (salt p pw : String) (hsalt : ':' ∉ salt.data)
    (hb1 : ∀ b ∈ kdf p salt, b < 256) (hb2 : ∀ b ∈ kdf pw salt, b < 256) :
    verifyPassword kdf p (hashPassword kdf salt pw) =
      timingSafeEqual (kdf pw salt) (kdf p salt) := by
  have hsplit : jsSplit ':' (salt ++ ":" ++ hexEncode (kdf pw salt)) =
      [salt, hexEncode (kdf pw salt)] :=
    jsSplit_colon salt _ hsalt (hexEncode_no_colon _)
  simp only [verifyPassword, hashPassword, hsplit, List.head?_cons,
    bufFromHex_hexEncode _ hb1, bufFromHex_hexEncode _ hb2]

/-- C1: the spec demands that `verify(password, storedHash)` return false
and never throw on a malformed stored hash; the code instead throws: with
no `:` separator, `originalHash` is `undefined` and
`Buffer.from(undefined, 'hex')` throws a `TypeError`; with a digest whose
hex decoding is not 64 bytes (wrong length or non-hex characters, here a
2-byte digest against a 1-byte derived key), `crypto.timingSafeEqual`
throws a `RangeError`. -/
theorem auth_verifyPassword_throws_on_malformed_hash :
    verifyPassword kdfTest "password" "deadbeef" = .error .typeError ∧
    verifyPassword kdfTest "password" "00ff:abcd" = .error .rangeError := by
  constructor <;> rfl

/-- C2: verifying a password against its own hash succeeds, and verifying
it against the hash of a different password fails, provided the two
PBKDF2 derivations for that salt do not collide (the salt is colon-free
hex in the source, and PBKDF2 output bytes are bytes of equal length). -/
theorem auth_hash_verify_roundtrip (kdf : String → String → List Nat)
    (salt p p2 : String) (hsalt : ':' ∉ salt.data)
    (hb1 : ∀ b ∈ kdf p salt, b < 256) (hb2 : ∀ b ∈ kdf p2 salt, b < 256)
    (hlen : (kdf p salt).length = (kdf p2 salt).length)
    (_hne : p ≠ p2) (hcoll : kdf p salt ≠ kdf p2 salt) :
    verifyPassword kdf p (hashPassword kdf salt p) = .ok true ∧
    verifyPassword kdf p (hashPassword kdf salt p2) = .ok false := by
  constructor
  · rw [verifyPassword_hashPassword kdf salt p p hsalt hb1 hb1]
    simp [timingSafeEqual]
  · rw [verifyPassword_hashPassword kdf salt p p2 hsalt hb1 hb2]
    simp only [timingSafeEqual, if_pos hlen.symm]
    simpa using fun h => hcoll h.symm

theorem auth_hash_verify_roundtrip_witness :
    verifyPassword kdfTest "a" (hashPassword kdfTest "salt" "a") = .ok true ∧
    verifyPassword kdfTest "a" (hashPassword kdfTest "salt" "b") = .ok false :=
  auth_hash_verify_roundtrip kdfTest "salt" "a" "b" (by decide) (by decide)
    (by decide) (by decide) (by decide) (by decide)

/-- C7 counterexample: the sweep runs
`DELETE FROM sessions WHERE expires_at < ?`, a strict comparison, so a
row whose `expires_at` equals the current time is NOT deleted: sweeping
`dbSweep` (one row with `expires_at = 5`) at time `5` leaves the table
unchanged, while the claim says that row must be deleted. -/
theorem sweep_keeps_row_expiring_now :
    (cleanupExpiredSessions dbSweep 5).sessions =
      [{ id := 1, user_id := 1, token := "t", expires_at := 5,
         created_at := 0 }] := by
  rfl

/-- C7 amended: `sweepExpired` deletes exactly the rows with
`expires_at < now` (strict); a row with `expires_at = now` survives, and
no row with `expires_at > now` is deleted: a row is in the swept table
iff it was in the table and `now ≤ expires_at`. -/
theorem sweep_deletes_strictly_expired (db : Db) (now : Nat) (s : SessionRow) :
    s ∈ (cleanupExpiredSessions db now).sessions ↔
      s ∈ db.sessions ∧ now ≤ s.expires_at := by
  simp [cleanupExpiredSessions, sqlDelete, List.mem_filter, Nat.not_lt]

/-- C8 counterexample: `setSessionCookie` only appends `; HttpOnly` when
the destructured `httpOnly` option is truthy; passing
`{ httpOnly: false }` produces a `Set-Cookie` header without the
`HttpOnly` attribute, while the claim says `HttpOnly` is always set. -/
theorem cookie_httponly_false_omits_attribute :
    strHasSub (setSessionCookie false "abc123" { httpOnly := some false })
      "HttpOnly" = false := by
  rfl

theorem listStartsWith_extend (pat l l2 : List Char)
    (h : listStartsWith pat l = true) : listStartsWith pat (l ++ l2) = true := by
  induction pat generalizing l with
  | nil => simp [listStartsWith]
  | cons p ps ih =>
    match l with
    | [] => simp [listStartsWith] at h
    | c :: cs =>
      simp only [listStartsWith, Bool.and_eq_true] at h
      simp only [List.cons_append, listStartsWith, Bool.and_eq_true]
      exact ⟨h.1, ih cs h.2⟩

theorem listHasSub_nil_pat (l : List Char) : listHasSub [] l = true := by
  cases l <;> simp [listHasSub, listStartsWith, List.isEmpty]

theorem listHasSub_append_right (pat l1 l2 : List Char)
    (h : listHasSub pat l1 = true) : listHasSub pat (l1 ++ l2) = true := by
  induction l1 with
  | nil =>
    simp only [listHasSub, List.isEmpty_iff] at h
    subst h
    exact listHasSub_nil_pat l2
  | cons c cs ih =>
    simp only [listHasSub, Bool.or_eq_true] at h
    simp only [List.cons_append, listHasSub, Bool.or_eq_true]
    rcases h with h | h
    · exact Or.inl (by simpa using listStartsWith_extend pat (c :: cs) l2 h)
    · exact Or.inr (ih h)

theorem listHasSub_append_left (pat l1 l2 : List Char)
    (h : listHasSub pat l2 = true) : listHasSub pat (l1 ++ l2) = true := by
  induction l1 with
  | nil => simpa using h
  | cons c cs ih =>
    simp only [List.cons_append, listHasSub, Bool.or_eq_true]
    exact Or.inr ih

/-- C8 amended: the `HttpOnly` attribute is present by default — for every
token and every options object that does not explicitly set
`httpOnly: false`, the produced `Set-Cookie` header contains `HttpOnly`;
an explicit `httpOnly: false` omits it (as the counterexample shows). -/
theorem cookie_httponly_set_by_default (isProduction : Bool) (token : String)
    (options : CookieOptions) (h : options.httpOnly.getD true = true) :
    strHasSub (setSessionCookie isProduction token options) "HttpOnly" = true := by
  simp only [setSessionCookie, h, if_true, strHasSub, String.data_append]
  apply listHasSub_append_right
  apply listHasSub_append_left
  decide

theorem cookie_httponly_set_by_default_witness :
    strHasSub (setSessionCookie false "abc123" {}) "HttpOnly" = true :=
  cookie_httponly_set_by_default false "abc123" {} (by rfl)

theorem parseCookies_foldl_ok (l : List String) (init : List (String × String)) :
    (l.foldlM (fun cookies cookie =>
        match jsSplit '=' cookie with
        | [] => Except.error JsError.typeError
        | name :: rest =>
          Except.ok (jsObjSet cookies (jsTrim name) (jsTrim (jsJoin "=" rest))))
      init)
      = Except.ok (l.foldl (fun cookies cookie =>
        match jsSplit '=' cookie with
        | [] => cookies
        | name :: rest =>
          jsObjSet cookies (jsTrim name) (jsTrim (jsJoin "=" rest))) init) := by
  induction l generalizing init with
  | nil => rfl
  | cons c cs ih =>
    rw [List.foldlM_cons, List.foldl_cons]
    match hsp : jsSplit '=' c with
    | [] => exact absurd hsp (jsSplit_ne_nil '=' c)
    | name :: rest =>
      simpa using ih (jsObjSet init (jsTrim name) (jsTrim (jsJoin "=" rest)))

theorem parseCookiesE_ok (header : Option String) :
    parseCookiesE header = .ok (parseCookies header) := by
  match header with
  | none => rfl
  | some h =>
    by_cases hh : h = ""
    · simp [parseCookiesE, parseCookies, hh]
    · simp only [parseCookiesE, parseCookies, if_neg hh]
      exact parseCookies_foldl_ok (jsSplit ';' h) []

/-- C9: cookie extraction — on
`"foo=bar; session_token=abc123; baz=qux"` it returns `"abc123"`; on a
header with no `session_token` pair it returns `null`; on a missing
`Cookie` header it returns `null`; and for every header string (malformed
ones with stray `=` or empty segments included) the instrumented parser
never reaches a throw point: it returns exactly the value of the total
function. -/
theorem cookie_extract_behavior :
    getSessionToken (some "foo=bar; session_token=abc123; baz=qux") = some "abc123" ∧
    getSessionToken (some "foo=bar; baz=qux") = none ∧
    getSessionToken none = none ∧
    ∀ header, getSessionTokenE header = .ok (getSessionToken header) := by
  refine ⟨by decide, by decide, rfl, fun header => ?_⟩
  cases hj : jsObjGet (parseCookies header) COOKIE_NAME with
  | none => simp [getSessionTokenE, getSessionToken, parseCookiesE_ok, hj]
  | some v =>
    by_cases hv : v = "" <;>
      simp [getSessionTokenE, getSessionToken, parseCookiesE_ok, hj, hv]

/-- C10: a `session_token` cookie whose value is the empty string is
treated exactly like an absent session: `parseCookies` maps the name to
`""`, which is falsy, so `cookies[COOKIE_NAME] || null` yields `null`. -/
theorem cookie_empty_value_treated_as_absent (header : Option String)
    (h : jsObjGet (parseCookies header) COOKIE_NAME = some "") :
    getSessionToken header = none := by
  simp [getSessionToken, h]

theorem cookie_empty_value_treated_as_absent_witness :
    getSessionToken (some "session_token=") = none :=
  cookie_empty_value_treated_as_absent (some "session_token=") (by decide)

theorem pairwise_token_inj {l : List SessionRow}
    (hp : l.Pairwise (fun a b => a.token ≠ b.token)) {a b : SessionRow}
    (ha : a ∈ l) (hb : b ∈ l) (h : a.token = b.token) : a = b := by
  induction l with
  | nil => cases ha
  | cons x xs ih =>
    rcases List.pairwise_cons.mp hp with ⟨hx, hxs⟩
    rcases List.mem_cons.mp ha with rfl | ha' <;>
      rcases List.mem_cons.mp hb with rfl | hb'
    · rfl
    · exact absurd h (hx b hb')
    · exact absurd h.symm (hx a ha')
    · exact ih hxs ha' hb'

/-- C3: `validateSession(token)` returns user `u` exactly when some
session row carries that token, is strictly unexpired (`expires_at > now`),
and its owning user resolves (via `getUserById`) to `u` with
`is_active = true`; in every other case — no row, expired row, missing
user, or inactive user — it returns null.  The two hypotheses are the
store invariants maintained by `createSession` and the schema: every
stored token is a nonempty (64-hex-character) string, and `token` is
UNIQUE. -/
theorem session_validate_characterization (db : Db) (t : String) (now : Nat)
    (u : UserView) (hnz : ∀ s ∈ db.sessions, s.token ≠ "")
    (huniq : db.sessions.Pairwise (fun a b => a.token ≠ b.token)) :
    validateSession db t now = some u ↔
      ∃ s ∈ db.sessions, s.token = t ∧ now < s.expires_at ∧
        getUserById db s.user_id = some u ∧ u.is_active = true := by
  constructor
  · intro hv
    by_cases ht : t = ""
    · simp [validateSession, ht] at hv
    · simp only [validateSession, if_neg ht] at hv
      match hf : db.sessions.find? (fun s => s.token == t && now < s.expires_at) with
      | none => rw [hf] at hv; cases hv
      | some s =>
        rw [hf] at hv
        dsimp only at hv
        have hmem := List.mem_of_find?_eq_some hf
        have hpred := List.find?_some hf
        simp only [Bool.and_eq_true, beq_iff_eq, decide_eq_true_eq] at hpred
        match hg : getUserById db s.user_id with
        | none => rw [hg] at hv; cases hv
        | some user =>
          rw [hg] at hv
          by_cases hact : user.is_active
          · simp only [if_pos hact, Option.some.injEq] at hv
            subst hv
            exact ⟨s, hmem, hpred.1, hpred.2, hg, hact⟩
          · simp [hact] at hv
  · rintro ⟨s, hmem, htok, hexp, hget, hact⟩
    have ht : t ≠ "" := htok ▸ hnz s hmem
    simp only [validateSession, if_neg ht]
    have hsat : (fun x : SessionRow => x.token == t && decide (now < x.expires_at)) s
        = true := by
      simp [htok, hexp]
    match hf : db.sessions.find? (fun x => x.token == t && now < x.expires_at) with
    | none =>
      exact absurd (List.find?_eq_none.mp hf s hmem) (by simp [hsat])
    | some s' =>
      have hmem' := List.mem_of_find?_eq_some hf
      have hpred' := List.find?_some hf
      simp only [Bool.and_eq_true, beq_iff_eq, decide_eq_true_eq] at hpred'
      have : s' = s := pairwise_token_inj huniq hmem' hmem (by rw [hpred'.1, htok])
      subst this
      rw [hf]
      dsimp only
      rw [hget]
      dsimp only
      rw [if_pos hact]

theorem session_validate_characterization_witness :
    validateSession dbValidate "tok" 5 = some userViewA :=
  (session_validate_characterization dbValidate "tok" 5 userViewA
    (by intro s hs; simp [dbValidate] at hs; simp [hs])
    (by simp [dbValidate])).mpr
    ⟨{ id := 1, user_id := 1, token := "tok", expires_at := 10, created_at := 0 },
      by simp [dbValidate], rfl, by norm_num, rfl, rfl⟩

/-- C5: the login handler answers the same `401 {error:"Invalid
credentials"}` body both when no user exists with the given email and
when the user exists but password verification returns false, so the two
cases are indistinguishable to the client.  (Empty email or password is
rejected earlier as falsy, hence the two nonemptiness hypotheses.) -/
theorem login_invalid_credentials_indistinguishable
    (kdf : String → String → List Nat) (token : String) (db : Db) (now : Nat)
    (email password : String) (hemail : email ≠ "") (hpw : password ≠ "") :
    (getUserByEmail db email = none →
      (loginResponse kdf token db now email password).1 =
        ⟨401, errObj "Invalid credentials"⟩) ∧
    (∀ u, getUserByEmail db email = some u →
      verifyPassword kdf password u.password_hash = .ok false →
      (loginResponse kdf token db now email password).1 =
        ⟨401, errObj "Invalid credentials"⟩) := by
  constructor
  · intro hnone
    simp [loginResponse, hemail, hpw, hnone]
  · intro u hsome hverify
    simp [loginResponse, hemail, hpw, hsome, hverify]

theorem login_invalid_credentials_indistinguishable_witness :
    (loginResponse kdfTest "tok" dbEmpty 0 "a@b.com" "x").1 =
      ⟨401, errObj "Invalid credentials"⟩ :=
  (login_invalid_credentials_indistinguishable kdfTest "tok" dbEmpty 0
    "a@b.com" "x" (by decide) (by decide)).1 rfl

/-- C6 counterexample: a duplicate email that passes the pre-check (the
pre-check read `dbPre` is empty, but by insert time `dbIns` already holds
a user with `a@b.com` — the race the spec describes) makes the `INSERT`
hit the `email UNIQUE` constraint; `createUser`'s `catch` turns that into
`null`, and the register endpoint answers `500 {error:"Failed to create
user"}` — an internal error, not the 400 duplicate-email error the claim
requires. -/
theorem register_race_answers_500_not_email_taken :
    (registerResponse kdfTest "salt" "tok" dbEmpty dbWithUserA 0
        "a@b.com" "pw" none).1 = ⟨500, errObj "Failed to create user"⟩ ∧
    (registerResponse kdfTest "salt" "tok" dbEmpty dbWithUserA 0
        "a@b.com" "pw" none).1.status ≠ 400 := by
  exact ⟨rfl, by decide⟩

/-- C6 amended: when the pre-check finds no user but the insert hits the
storage engine's uniqueness-constraint violation on email (a duplicate
that appeared after the pre-check), the register endpoint surfaces the
failure as the internal error `500 {error:"Failed to create user"}` — the
constraint violation is NOT mapped to the 400 duplicate-email error; only
the pre-check produces `400 {error:"Email already registered"}`. -/
theorem register_race_surfaces_internal_error
    (kdf : String → String → List Nat) (salt token : String) (dbPre dbIns : Db)
    (now : Nat) (email password : String) (fullName : Option String)
    (hemail : email ≠ "") (hpw : password ≠ "")
    (hpre : getUserByEmail dbPre email = none)
    (hdup : dbIns.users.any (fun u => u.email == email) = true) :
    (registerResponse kdf salt token dbPre dbIns now email password fullName).1 =
      ⟨500, errObj "Failed to create user"⟩ := by
  simp [registerResponse, hemail, hpw, hpre, createUser, hdup]

theorem register_race_surfaces_internal_error_witness :
    (registerResponse kdfTest "salt" "tok" dbEmpty dbWithUserA 0
        "a@b.com" "pw" none).1 = ⟨500, errObj "Failed to create user"⟩ :=
  register_race_surfaces_internal_error kdfTest "salt" "tok" dbEmpty dbWithUserA 0
    "a@b.com" "pw" none (by decide) (by decide) rfl (by decide)

theorem respNoHash_err (st : Nat) (msg : String) :
    respNoHash ⟨st, errObj msg⟩ = true := rfl

theorem respNoHash_success (u : UserRow) :
    respNoHash ⟨200, .obj [("success", .bool true),
      ("user", .obj (jsDeleteField "password_hash" u.fields))]⟩ = true := rfl

theorem respNoHash_me_success (u : UserView) :
    respNoHash ⟨200, .obj (jsDeleteField "password_hash" u.fields)⟩ = true := rfl

/-- C4: no response of the auth endpoints — register, login, or
current-user, success or error, over every store state and input —
carries a `password_hash` field, neither at the top level of the body nor
in the `user` object: register and login strip it with
`delete user.password_hash` before responding, and `/api/auth/me` answers
a `getUserById` projection that never selected the column. -/
theorem auth_responses_never_expose_password_hash
    (kdf : String → String → List Nat) (salt token : String)
    (dbPre dbIns db : Db) (now : Nat) (email password : String)
    (fullName : Option String) (cookieHeader : Option String) :
    respNoHash (registerResponse kdf salt token dbPre dbIns now
        email password fullName).1 = true ∧
    respNoHash (loginResponse kdf token db now email password).1 = true ∧
    respNoHash (meResponse db now cookieHeader) = true := by
  refine ⟨?_, ?_, ?_⟩
  · rw [registerResponse]
    dsimp only [createSession]
    repeat' split
    all_goals
      first
        | exact respNoHash_err _ _
        | exact respNoHash_success _
  · rw [loginResponse]
    dsimp only [createSession]
    repeat' split
    all_goals
      first
        | exact respNoHash_err _ _
        | exact respNoHash_success _
  · rw [meResponse]
    repeat' split
    all_goals
      first
        | exact respNoHash_err _ _
        | exact respNoHash_me_success _
